import Mathlib

/-!
Verification development for the guerilla device registry and task engine.

The JavaScript sources are shallowly embedded: strings are Lean `String`s
(backed by `List Char`), the JavaScript string primitives `indexOf`, `slice`,
`split` and `trim` are modelled below with ECMAScript semantics, fallible
code returns `Except String`, and the stateful line stream of the simctl
parser becomes structural recursion over the remaining list of lines.
-/

/-- JavaScript whitespace test restricted to the ASCII whitespace characters
that can occur in the embedded inputs; used to model `String.prototype.trim`. -/
def jsWhitespace (c : Char) : Bool :=
  c = ' ' || c = '\t' || c = '\n' || c = '\r'

/-- Model of `String.prototype.trim`: drop whitespace from both ends. -/
def jsTrim (s : String) : String :=
  String.mk (((s.data.dropWhile jsWhitespace).reverse.dropWhile jsWhitespace).reverse)

/-- Helper for `jsSplitChar`: accumulates the current field in reverse. -/
def splitFieldsAux (sep : Char) : List Char → List Char → List String
  | [], acc => [String.mk acc.reverse]
  | c :: rest, acc =>
    if c = sep then String.mk acc.reverse :: splitFieldsAux sep rest []
    else splitFieldsAux sep rest (c :: acc)

/-- Model of `String.prototype.split` with a one-character separator
(the source only splits on `'\n'` and `' '`). -/
def jsSplitChar (sep : Char) (s : String) : List String :=
  splitFieldsAux sep s.data []

/-- Search for the first match of `pat` in `s`, counting positions from `i`.
Returns `none` when `pat` (assumed nonempty in all uses) does not occur. -/
def idxOfAux (pat : List Char) : List Char → Nat → Option Nat
  | [], i => if pat.isEmpty then some i else none
  | c :: rest, i =>
    if pat.isPrefixOf (c :: rest) then some i else idxOfAux pat rest (i + 1)

/-- Model of `String.prototype.indexOf(pat, start)`: position of the first
occurrence of `pat` at or after `start`, or `-1`. -/
def jsIndexOfFrom (s pat : String) (start : Nat) : Int :=
  match idxOfAux pat.data (s.data.drop start) start with
  | some n => Int.ofNat n
  | none => -1

/-- Model of `String.prototype.indexOf(pat)`. -/
def jsIndexOf (s pat : String) : Int :=
  jsIndexOfFrom s pat 0

/-- The clamping ECMAScript `slice` applies to each of its two indices:
negative indices count from the end, and the result lies in `[0, length]`. -/
def jsSliceClamp (s : String) (idx : Int) : Nat :=
  (if idx < 0 then max (Int.ofNat s.data.length + idx) 0
   else min idx (Int.ofNat s.data.length)).toNat

/-- Model of `String.prototype.slice(start, finish)`: both indices are
clamped by `jsSliceClamp`, and a crossed range yields the empty string. -/
def jsSlice (s : String) (start finish : Int) : String :=
  String.mk ((s.data.take (jsSliceClamp s finish)).drop (jsSliceClamp s start))

/-- `pat` occurs as a contiguous substring of `s`. -/
def occursIn (pat s : List Char) : Prop :=
  ∃ pre post, s = pre ++ pat ++ post

/-- `pat` occurs in `s` starting exactly at position `k`. -/
def atPos (pat s : List Char) (k : Nat) : Prop :=
  pat.isPrefixOf (s.drop k) = true

instance (pat s : List Char) (k : Nat) : Decidable (atPos pat s k) := by
  unfold atPos
  infer_instance

/-- The JSON-shaped device descriptor built by `createDevice` in the device
manager (`src/unnamed/part_001`). -/
structure DeviceJson where
  tag : String
  platform : String
  identifier : String
  name : String
  OS : String
  simulator : Bool
  destination : String
deriving DecidableEq

/-- `oslevel.split(' ')[1]` from `createDevice`; indexing a JavaScript array
past its end yields `undefined`, which string concatenation renders as
`"undefined"`. -/
def osVersionOf (oslevel : String) : String :=
  match jsSplitChar ' ' oslevel with
  | _ :: v :: _ => v
  | _ => "undefined"

/-- `line.slice(openParenIndex + 1, closeParenIndex)` from `createDevice`. -/
def extractIdentifier (line : String) : String :=
  jsSlice line (jsIndexOf line "(" + 1) (jsIndexOf line ")")

/-- `line.slice(0, openParenIndex).trim()` from `createDevice`. -/
def deviceNameOf (line : String) : String :=
  jsTrim (jsSlice line 0 (jsIndexOf line "("))

/-- The spec's reading of the device name: everything before the opening
parenthesis, trimmed. -/
def specDeviceName (line : String) : String :=
  jsTrim (String.mk (line.data.takeWhile (fun a => !(a == '('))))

/-- `createDevice(oslevel, line)` from `src/unnamed/part_001` lines 34-53.
Thrown `Error`s become `Except.error` of the same message. -/
def createDevice (oslevel line : String) : Except String DeviceJson :=
  if jsIndexOf line "unavailable" ≠ -1 then
    .error ("createDevice-fed an unavailable device:" ++ oslevel ++ ":" ++ line)
  else if jsIndexOf line "(" = -1 then
    .error ("createDevice: could not find open paren in: " ++ oslevel ++ ":" ++ line)
  else if jsIndexOf line ")" = -1 then
    .error ("createDevice: could not find close paren in: " ++ oslevel ++ ":" ++ line)
  else if (extractIdentifier line).length < 10 then
    .error ("createDevice: could not find valid identifier in:" ++ oslevel ++ ":" ++ line)
  else
    .ok {
      tag := "ios-simulator,OS=" ++ osVersionOf oslevel ++ ",name=" ++ deviceNameOf line,
      platform := "ios",
      identifier := extractIdentifier line,
      name := "ios-simulator " ++ deviceNameOf line ++ " (" ++ osVersionOf oslevel ++ ")",
      OS := oslevel,
      simulator := true,
      destination := "OS=" ++ osVersionOf oslevel ++ ",name=" ++ deviceNameOf line }

/-- `isHeader(line)` from `src/unnamed/part_001` lines 55-58. -/
def isHeader (line : String) : Bool :=
  jsSlice line 0 2 == "--" || jsSlice line 0 2 == "=="

/-- `nextValueAsOSLevel` from `src/unnamed/part_001` lines 94-103, applied to
the consumed line. -/
def nextValueAsOSLevel (value : String) : Except String String :=
  if jsIndexOf value "--" ≠ 0 then
    .error ("expected oslevel prefix of \"--\" in:" ++ value)
  else
    .ok (jsTrim (jsSlice value 2 (jsIndexOfFrom value "--" 2)))

/-- `advanceTillMatch` from `src/unnamed/part_001` lines 75-82: consume lines
until one whose prefix of the target's length equals the target, returning
the rest of the stream; error at end of stream. -/
def advanceTillMatch (target : String) : List String → Except String (List String)
  | [] => .error ("unexpected end while advancingTillMatch:" ++ target)
  | l :: rest =>
    if jsSlice l 0 (Int.ofNat target.length) == target then .ok rest
    else advanceTillMatch target rest

/-- The two nested while loops of `getOSLevelEntries`
(`src/unnamed/part_001` lines 129-141) as one recursion over the remaining
lines. `none` is the outer loop looking for an OS-level header; `some os` is
the inner loop collecting device lines under OS level `os`. When the inner
loop sees a header it falls back to the outer loop on that same line, which
is inlined here so the recursion is structural. -/
def osGo : Option String → List String → Except String (List DeviceJson)
  | _, [] => .ok []
  | none, l :: rest =>
    if jsIndexOf l "==" = 0 then .ok []
    else
      match nextValueAsOSLevel l with
      | .error e => .error e
      | .ok os => osGo (some os) rest
  | some os, l :: rest =>
    if isHeader l then
      if jsIndexOf l "==" = 0 then .ok []
      else
        match nextValueAsOSLevel l with
        | .error e => .error e
        | .ok os2 => osGo (some os2) rest
    else if jsIndexOf l "unavailable" = -1 then
      match createDevice os l with
      | .error e => .error e
      | .ok d =>
        match osGo (some os) rest with
        | .error e => .error e
        | .ok ds => .ok (d :: ds)
    else osGo (some os) rest

/-- `getOSLevelEntries(stream)` from `src/unnamed/part_001` lines 129-141. -/
def getOSLevelEntries (lines : List String) : Except String (List DeviceJson) :=
  osGo none lines

/-- `getSimulatedDevicesFromLines` from `src/unnamed/part_001` lines 144-150. -/
def getSimulatedDevicesFromLines (lines : List String) : Except String (List DeviceJson) :=
  match advanceTillMatch "== Device Types ==" lines with
  | .error e => .error e
  | .ok s1 =>
    match advanceTillMatch "== Devices ==" s1 with
    | .error e => .error e
    | .ok s2 => getOSLevelEntries s2

/-- `getSimulatedDevices` from `src/unnamed/part_001` lines 152-154. -/
def getSimulatedDevices (simctlString : String) : Except String (List DeviceJson) :=
  getSimulatedDevicesFromLines (jsSplitChar '\n' simctlString)

/-- Modelled from the spec: the `Device` class (`require('./device')`) is not
among the provided source files. Per the spec (section 3) a Device carries
the descriptor fields verbatim and is immutable after construction, so
`new Device(json)` is modelled as the descriptor record itself. -/
abbrev Device := DeviceJson

/-- Modelled from the spec: `new Device(json)`, see `Device`. -/
def newDevice (json : DeviceJson) : Device := json

/-- `Map.prototype.set`: replace in place when the key is present (insertion
order is kept), otherwise append. -/
def mapSet : List (String × Device) → String → Device → List (String × Device)
  | [], k, v => [(k, v)]
  | (k', v') :: rest, k, v =>
    if k' = k then (k, v) :: rest else (k', v') :: mapSet rest k v

/-- `Map.prototype.get`, returning `none` for an absent key. -/
def jsMapGet : List (String × Device) → String → Option Device
  | [], _ => none
  | (k, v) :: rest, t => if k = t then some v else jsMapGet rest t

/-- The last element of `ds` whose tag is `t`, if any. -/
def lastWith : List DeviceJson → String → Option DeviceJson
  | [], _ => none
  | d :: rest, t =>
    match lastWith rest t with
    | some d2 => some d2
    | none => if d.tag = t then some d else none

/-- The state built by the `DeviceManager` constructor
(`src/unnamed/part_001` lines 161-176). -/
structure DeviceManager where
  devicesByTag : List (String × Device)
  devices : List Device

/-- One iteration of the `allDevices.forEach` loop in the constructor. -/
def registerDevice (self : DeviceManager) (json : DeviceJson) : DeviceManager :=
  { devicesByTag := mapSet self.devicesByTag (newDevice json).tag (newDevice json),
    devices := self.devices ++ [newDevice json] }

/-- The `DeviceManager` constructor: `configDevices.concat(simulatedDevices)`
registered in order into an empty map and list. -/
def mkDeviceManager (configDevices simulatedDevices : List DeviceJson) : DeviceManager :=
  (configDevices ++ simulatedDevices).foldl registerDevice ⟨[], []⟩

/-- `DeviceManager.prototype.findByTag` (`src/unnamed/part_001` lines
180-183): `null` for an absent tag becomes `none`. -/
def DeviceManager.findByTag (self : DeviceManager) (tag : String) : Option Device :=
  jsMapGet self.devicesByTag tag

/-- `path.join(a, b)` modelled as plain separator concatenation; the claims
only use it as an uninterpreted string constructor. -/
def pathJoin (a b : String) : String :=
  a ++ "/" ++ b

/-- One Command Runner invocation as issued by a task: command name,
arguments, and the working directory passed in `options` (if any). -/
structure ExecCall where
  cmd : String
  args : List String
  cwd : Option String
deriving DecidableEq

/-- What the Command Runner reports back for one invocation: the error the
callback receives (`none` on success) and the stdout lines delivered to the
`options.stdout` callback while the command ran. -/
structure ExecResult where
  error : Option String
  stdoutLines : List String

/-- The parameters of the repo-checkout task
(`src/tasks/javascript/repo-checkout.js`). -/
structure RepoParams where
  checkout_url : String
  branch : Option String
  project_root : Option String
  manifest_file : Option String

/-- The context fields the repo-checkout task reads. -/
structure RepoContext where
  working_dir : String
  bin_dir : String

/-- `context.checkout_root = path.join(context.working_dir, 'project')`. -/
def checkoutRoot (context : RepoContext) : String :=
  pathJoin context.working_dir "project"

/-- `context.project_root` as set by `execute`. -/
def projectRoot (params : RepoParams) (context : RepoContext) : String :=
  match params.project_root with
  | some pr => pathJoin (checkoutRoot context) pr
  | none => checkoutRoot context

/-- `path.join(context.bin_dir, 'repo', 'repo')`. -/
def repoCmdPath (context : RepoContext) : String :=
  pathJoin (pathJoin context.bin_dir "repo") "repo"

/-- The first command issued by the repo-checkout task: `mkdir -p`. -/
def repoCall1 (context : RepoContext) : ExecCall :=
  ⟨"mkdir", ["-p", checkoutRoot context], none⟩

/-- The second command issued by the repo-checkout task: `repo init`. -/
def repoCall2 (params : RepoParams) (context : RepoContext) : ExecCall :=
  ⟨repoCmdPath context,
   ["init", "-u", params.checkout_url]
     ++ (match params.branch with | some b => ["-b", b] | none => [])
     ++ (match params.manifest_file with | some m => ["-m", m] | none => []),
   some (checkoutRoot context)⟩

/-- The third command issued by the repo-checkout task: `repo sync`. -/
def repoCall3 (context : RepoContext) : ExecCall :=
  ⟨repoCmdPath context, ["sync", "-d", "-c", "--jobs=4"], some (checkoutRoot context)⟩

/-- The fourth command issued by the repo-checkout task: `git rev-parse HEAD`. -/
def repoCall4 (params : RepoParams) (context : RepoContext) : ExecCall :=
  ⟨"git", ["rev-parse", "HEAD"], some (projectRoot params context)⟩

/-- The `stdout` callback of the fourth step folded over the delivered lines:
`if (data.length === 41) output.version = data.trim()`, later assignments
overwriting earlier ones. -/
def versionFromLines (lines : List String) : Option String :=
  lines.foldl (fun acc data => if data.length = 41 then some (jsTrim data) else acc) none

/-- The `output` object of the repo-checkout task: it holds the key
`"version"` exactly when the stdout callback assigned it. -/
def versionOutput (o : Option String) : List (String × String) :=
  match o with
  | some v => [("version", v)]
  | none => []

/-- `execute` of `src/tasks/javascript/repo-checkout.js` lines 23-90.
`async.series` runs the four steps in order and stops at the first error,
which is handed to the final callback together with whatever `output`
object. The returned triple is (error given to the callback, the `output`
map, the commands issued in order). The fourth step swallows its error by
calling `cb()` with no argument. -/
def repoCheckoutExecute (params : RepoParams) (context : RepoContext)
    (exec : ExecCall → ExecResult) :
    Option String × List (String × String) × List ExecCall :=
  match (exec (repoCall1 context)).error with
  | some e => (some e, [], [repoCall1 context])
  | none =>
    match (exec (repoCall2 params context)).error with
    | some e => (some e, [], [repoCall1 context, repoCall2 params context])
    | none =>
      match (exec (repoCall3 context)).error with
      | some e =>
        (some e, [], [repoCall1 context, repoCall2 params context, repoCall3 context])
      | none =>
        (none,
         versionOutput (versionFromLines (exec (repoCall4 params context)).stdoutLines),
         [repoCall1 context, repoCall2 params context, repoCall3 context,
          repoCall4 params context])

/-- A sample statically configured device descriptor sharing its tag with
`sampleDiscoveredDevice`, used to exercise the registry at concrete inputs. -/
def sampleConfigDevice : DeviceJson :=
  { tag := "ios-simulator,OS=9.1,name=iPhone 4s",
    platform := "config",
    identifier := "CONFIGURED-0000",
    name := "configured iPhone 4s",
    OS := "iOS 9.1",
    simulator := true,
    destination := "OS=9.1,name=iPhone 4s" }

/-- A sample discovered device descriptor sharing its tag with
`sampleConfigDevice`. -/
def sampleDiscoveredDevice : DeviceJson :=
  { tag := "ios-simulator,OS=9.1,name=iPhone 4s",
    platform := "ios",
    identifier := "05686243-BA24-44CE-94D9-D6823BF96E46",
    name := "ios-simulator iPhone 4s (9.1)",
    OS := "iOS 9.1",
    simulator := true,
    destination := "OS=9.1,name=iPhone 4s" }

theorem isPrefixOf_eq_true_iff :
    ∀ (p l : List Char), (p.isPrefixOf l = true) ↔ ∃ t, p ++ t = l
  | [], l => by simp [List.isPrefixOf]
  | a :: p, [] => by simp [List.isPrefixOf]
  | a :: p, b :: l => by
    simp only [List.isPrefixOf, Bool.and_eq_true, beq_iff_eq]
    constructor
    · rintro ⟨rfl, h⟩
      obtain ⟨t, ht⟩ := (isPrefixOf_eq_true_iff p l).1 h
      exact ⟨t, by rw [List.cons_append, ht]⟩
    · rintro ⟨t, ht⟩
      rw [List.cons_append] at ht
      injection ht with h1 h2
      subst h2
      exact ⟨h1, (isPrefixOf_eq_true_iff p (p ++ t)).2 ⟨t, rfl⟩⟩

theorem isPrefixOf_length_le {p l : List Char} (h : p.isPrefixOf l = true) :
    p.length ≤ l.length := by
  obtain ⟨t, ht⟩ := (isPrefixOf_eq_true_iff p l).1 h
  subst ht
  simp

theorem idxOfAux_some :
    ∀ (s : List Char) (pat : List Char) (i n : Nat),
      idxOfAux pat s i = some n → ∃ k, n = i + k ∧ atPos pat s k := by
  intro s
  induction s with
  | nil =>
    intro pat i n h
    simp only [idxOfAux] at h
    by_cases hp : pat.isEmpty = true
    · rw [if_pos hp] at h
      injection h with h

      subst h
      refine ⟨0, by omega, ?_⟩
      have hpat : pat = [] := by simpa [List.isEmpty_iff] using hp
      simp [atPos, hpat, List.isPrefixOf]
    · rw [if_neg hp] at h
      cases h
  | cons c rest ih =>
    intro pat i n h
    simp only [idxOfAux] at h
    by_cases hp : pat.isPrefixOf (c :: rest) = true
    · rw [if_pos hp] at h
      injection h with h
      subst h
      exact ⟨0, by omega, by simpa [atPos] using hp⟩
    · rw [if_neg hp] at h
      obtain ⟨k, hk, hpos⟩ := ih pat (i + 1) n h
      exact ⟨k + 1, by omega, by simpa [atPos] using hpos⟩

theorem idxOfAux_none :
    ∀ (s : List Char) (pat : List Char) (i : Nat),
      idxOfAux pat s i = none → ∀ k, ¬ atPos pat s k := by
  intro s
  induction s with
  | nil =>
    intro pat i h k hpos
    simp only [idxOfAux] at h
    by_cases hp : pat.isEmpty = true
    · rw [if_pos hp] at h
      cases h
    · rw [if_neg hp] at h
      have hpat : pat ≠ [] := by
        intro hc
        exact hp (by simp [hc, List.isEmpty])
      simp only [atPos, List.drop_nil] at hpos
      obtain ⟨t, ht⟩ := (isPrefixOf_eq_true_iff pat []).1 hpos
      exact hpat (by cases pat with | nil => rfl | cons a p => cases ht)
  | cons c rest ih =>
    intro pat i h k hpos
    simp only [idxOfAux] at h
    by_cases hp : pat.isPrefixOf (c :: rest) = true
    · rw [if_pos hp] at h
      cases h
    · rw [if_neg hp] at h
      cases k with
      | zero =>
        simp only [atPos, List.drop_zero] at hpos
        exact hp hpos
      | succ k =>
        exact ih pat (i + 1) h k (by simpa [atPos] using hpos)

theorem idxOfAux_min :
    ∀ (s : List Char) (pat : List Char) (i k : Nat),
      atPos pat s k → (∀ m, m < k → ¬ atPos pat s m) →
      idxOfAux pat s i = some (i + k) := by
  intro s
  induction s with
  | nil =>
    intro pat i k hpos hmin
    have hp : pat = [] := by
      simp only [atPos, List.drop_nil] at hpos
      cases pat with
      | nil => rfl
      | cons a p => simp [List.isPrefixOf] at hpos
    have hk : k = 0 := by
      by_contra hne
      exact hmin 0 (by omega) (by simp [atPos, hp, List.isPrefixOf])
    subst hp hk
    simp [idxOfAux, List.isEmpty]
  | cons c rest ih =>
    intro pat i k hpos hmin
    cases k with
    | zero =>
      simp only [atPos, List.drop_zero] at hpos
      simp [idxOfAux, hpos]
    | succ k =>
      have hnot : ¬ pat.isPrefixOf (c :: rest) = true := by
        have h0 := hmin 0 (by omega)
        simpa [atPos] using h0
      have heq : idxOfAux pat rest (i + 1) = some ((i + 1) + k) := by
        apply ih pat (i + 1) k
        · simpa [atPos] using hpos
        · intro m hm
          have hmm := hmin (m + 1) (by omega)
          simpa [atPos] using hmm
      simp only [idxOfAux, hnot, if_false]
      rw [heq]
      exact congrArg some (by omega)

theorem occursIn_iff_atPos (pat s : List Char) :
    occursIn pat s ↔ ∃ k, atPos pat s k := by
  constructor
  · rintro ⟨pre, post, rfl⟩
    refine ⟨pre.length, ?_⟩
    unfold atPos
    rw [List.append_assoc, List.drop_left]
    exact (isPrefixOf_eq_true_iff pat (pat ++ post)).2 ⟨post, rfl⟩
  · rintro ⟨k, hpos⟩
    unfold atPos at hpos
    obtain ⟨t, ht⟩ := (isPrefixOf_eq_true_iff pat (s.drop k)).1 hpos
    refine ⟨s.take k, t, ?_⟩
    rw [List.append_assoc, ht, List.take_append_drop]

theorem jsSliceClamp_ofNat (s : String) (k : Nat) :
    jsSliceClamp s (Int.ofNat k) = min k s.data.length := by
  simp only [jsSliceClamp, Int.ofNat_eq_coe]
  omega

theorem jsSliceClamp_neg_one (s : String) :
    jsSliceClamp s (-1) = s.data.length - 1 := by
  simp only [jsSliceClamp, Int.ofNat_eq_coe]
  omega

theorem jsIndexOf_eq_neg_one_iff (s pat : String) :
    jsIndexOf s pat = -1 ↔ ¬ occursIn pat.data s.data := by
  unfold jsIndexOf jsIndexOfFrom
  rw [List.drop_zero]
  constructor
  · intro h
    cases heq : idxOfAux pat.data s.data 0 with
    | none =>
      rw [occursIn_iff_atPos]
      rintro ⟨k, hpos⟩
      exact idxOfAux_none s.data pat.data 0 heq k hpos
    | some n =>
      rw [heq] at h
      simp at h
  · intro h
    cases heq : idxOfAux pat.data s.data 0 with
    | none => rfl
    | some n =>
      obtain ⟨k, _, hpos⟩ := idxOfAux_some s.data pat.data 0 n heq
      exact absurd ((occursIn_iff_atPos pat.data s.data).2 ⟨k, hpos⟩) h

theorem jsIndexOf_eq_zero_iff (s pat : String) :
    jsIndexOf s pat = 0 ↔ pat.data.isPrefixOf s.data = true := by
  unfold jsIndexOf jsIndexOfFrom
  rw [List.drop_zero]
  constructor
  · intro h
    cases heq : idxOfAux pat.data s.data 0 with
    | none =>
      rw [heq] at h
      simp at h
    | some n =>
      rw [heq] at h
      obtain ⟨k, hk, hpos⟩ := idxOfAux_some s.data pat.data 0 n heq
      have hn : n = 0 := by
        simpa using h
      have hk0 : k = 0 := by omega
      subst hk0
      simpa [atPos] using hpos
  · intro h
    have := idxOfAux_min s.data pat.data 0 0 (by simpa [atPos] using h)
      (fun m hm => absurd hm (by omega))
    rw [this]
    rfl

theorem occursIn_singleton_iff (c : Char) (s : List Char) :
    occursIn [c] s ↔ c ∈ s := by
  constructor
  · rintro ⟨pre, post, rfl⟩
    simp
  · intro h
    obtain ⟨pre, post, rfl⟩ := List.append_of_mem h
    exact ⟨pre, post, by simp⟩

theorem take_takeWhile (p : Char → Bool) :
    ∀ (s : List Char), s.take ((s.takeWhile p).length) = s.takeWhile p := by
  intro s
  induction s with
  | nil => rfl
  | cons c rest ih =>
    by_cases hc : p c = true
    · simp [List.takeWhile_cons, hc, ih]
    · simp [List.takeWhile_cons, hc]

theorem takeWhile_length_le (p : Char → Bool) :
    ∀ (s : List Char), (s.takeWhile p).length ≤ s.length := by
  intro s
  induction s with
  | nil => simp
  | cons c rest ih =>
    by_cases hc : p c = true
    · simp [List.takeWhile_cons, hc]
      omega
    · simp [List.takeWhile_cons, hc]

theorem singleton_first_occurrence (c : Char) :
    ∀ (s : List Char), c ∈ s →
      atPos [c] s ((s.takeWhile (fun a => !(a == c))).length) ∧
      (∀ m, m < (s.takeWhile (fun a => !(a == c))).length → ¬ atPos [c] s m) := by
  intro s
  induction s with
  | nil => intro h; cases h
  | cons b rest ih =>
    intro hmem
    by_cases hb : b = c
    · subst hb
      constructor
      · simp [atPos, List.isPrefixOf]
      · intro m hm
        simp at hm
    · have hmem' : c ∈ rest := by
        cases hmem with
        | head => exact absurd rfl hb
        | tail _ h => exact h
      obtain ⟨hpos, hmin⟩ := ih hmem'
      have htk : (b :: rest).takeWhile (fun a => !(a == c)) =
          b :: rest.takeWhile (fun a => !(a == c)) := by
        simp [List.takeWhile_cons, hb]
      constructor
      · rw [htk]
        simpa [atPos] using hpos
      · intro m hm
        rw [htk] at hm
        cases m with
        | zero =>
          simp [atPos, List.isPrefixOf]
          exact fun hc => hb hc.symm
        | succ m =>
          have : m < (rest.takeWhile (fun a => !(a == c))).length := by
            simpa using hm
          exact fun hp => hmin m this (by simpa [atPos] using hp)

theorem jsIndexOf_single_eq (s pat : String) (c : Char) (hpat : pat.data = [c])
    (h : c ∈ s.data) :
    jsIndexOf s pat = Int.ofNat ((s.data.takeWhile (fun a => !(a == c))).length) := by
  obtain ⟨hpos, hmin⟩ := singleton_first_occurrence c s.data h
  unfold jsIndexOf jsIndexOfFrom
  rw [List.drop_zero, hpat, idxOfAux_min s.data [c] 0 _ hpos hmin]
  simp

theorem jsIndexOf_single_ne (s pat : String) (c : Char) (hpat : pat.data = [c])
    (h : c ∈ s.data) : jsIndexOf s pat ≠ -1 := by
  rw [jsIndexOf_single_eq s pat c hpat h]
  simp

theorem deviceNameOf_eq_spec (line : String) (h : '(' ∈ line.data) :
    deviceNameOf line = specDeviceName line := by
  unfold deviceNameOf specDeviceName
  congr 1
  rw [jsIndexOf_single_eq line "(" '(' rfl h]
  unfold jsSlice
  have h0 : jsSliceClamp line 0 = 0 := by
    rw [show (0 : Int) = Int.ofNat 0 from rfl, jsSliceClamp_ofNat]
    simp
  have hL : jsSliceClamp line
      (Int.ofNat ((line.data.takeWhile (fun a => !(a == '('))).length)) =
      (line.data.takeWhile (fun a => !(a == '('))).length := by
    rw [jsSliceClamp_ofNat]
    exact min_eq_left (takeWhile_length_le _ line.data)
  rw [h0, hL, List.drop_zero, take_takeWhile]

/-- C5: for every device entry line whose opening or closing parenthesis is
missing, or whose extracted identifier is shorter than 10 characters,
`createDevice` fails with a parse error whose message ends with that
offending line (so it names the line), and never produces a device. -/
theorem createDevice_malformed_line_errors (oslevel line : String)
    (h : '(' ∉ line.data ∨ ')' ∉ line.data ∨ (extractIdentifier line).length < 10) :
    ∃ p, createDevice oslevel line = Except.error (p ++ line) := by
  unfold createDevice
  by_cases hu : jsIndexOf line "unavailable" = -1
  · rw [if_neg (by simp [hu])]
    by_cases hop : jsIndexOf line "(" = -1
    · rw [if_pos hop]
      exact ⟨"createDevice: could not find open paren in: " ++ oslevel ++ ":", rfl⟩
    · rw [if_neg hop]
      by_cases hcp : jsIndexOf line ")" = -1
      · rw [if_pos hcp]
        exact ⟨"createDevice: could not find close paren in: " ++ oslevel ++ ":", rfl⟩
      · rw [if_neg hcp]
        have hmemop : '(' ∈ line.data := by
          have hocc : occursIn ("(" : String).data line.data := by
            by_contra hno
            exact hop ((jsIndexOf_eq_neg_one_iff line "(").2 hno)
          exact (occursIn_singleton_iff '(' line.data).1 hocc
        have hmemcp : ')' ∈ line.data := by
          have hocc : occursIn (")" : String).data line.data := by
            by_contra hno
            exact hcp ((jsIndexOf_eq_neg_one_iff line ")").2 hno)
          exact (occursIn_singleton_iff ')' line.data).1 hocc
        have hid : (extractIdentifier line).length < 10 := by
          rcases h with h1 | h2 | h3
          · exact absurd hmemop h1
          · exact absurd hmemcp h2
          · exact h3
        rw [if_pos hid]
        exact ⟨"createDevice: could not find valid identifier in:" ++ oslevel ++ ":", rfl⟩
  · rw [if_pos (by simp [hu])]
    exact ⟨"createDevice-fed an unavailable device:" ++ oslevel ++ ":", rfl⟩

/-- Witness for C5 at the concrete line `"iPhone (short)"`, whose extracted
identifier `"short"` is shorter than 10 characters. -/
theorem createDevice_malformed_line_errors_witness :
    ∃ p, createDevice "iOS 9.1" "iPhone (short)" =
      Except.error (p ++ "iPhone (short)") :=
  createDevice_malformed_line_errors "iOS 9.1" "iPhone (short)"
    (Or.inr (Or.inr (by decide)))

/-- C2 counterexample: on the spec's own example line under OS level
`"iOS 9.1"`, the constructed device's `name` is
`"ios-simulator iPhone 4s (9.1)"` — the parenthesised part is the version,
not the full OS-level label `"iOS 9.1"` as the claim states. -/
theorem createDevice_name_claim_false :
    ∃ d, createDevice "iOS 9.1"
        "iPhone 4s (05686243-BA24-44CE-94D9-D6823BF96E46) (Shutdown)" =
        Except.ok d ∧
      d.name ≠ "ios-simulator iPhone 4s (iOS 9.1)" := by
  refine ⟨_, rfl, ?_⟩
  decide

/-- C2 amended: for every OS-level label and well-formed device entry line
(both parentheses present, extracted identifier at least 10 characters, no
"unavailable"), `createDevice` succeeds and the record has
`platform = "ios"`, `simulator = true`,
`tag = "ios-simulator,OS=<version>,name=<name>"`,
`name = "ios-simulator <name> (<version>)"` (the version, not the whole
OS-level label), `destination = "OS=<version>,name=<name>"`, where
`<version>` is the token after the space in the OS-level label and `<name>`
is everything before the opening parenthesis, trimmed. -/
theorem createDevice_fields (oslevel line : String)
    (hu : jsIndexOf line "unavailable" = -1)
    (hop : '(' ∈ line.data) (hcp : ')' ∈ line.data)
    (hid : 10 ≤ (extractIdentifier line).length) :
    createDevice oslevel line = Except.ok {
      tag := "ios-simulator,OS=" ++ osVersionOf oslevel ++ ",name=" ++ specDeviceName line,
      platform := "ios",
      identifier := extractIdentifier line,
      name := "ios-simulator " ++ specDeviceName line ++ " (" ++ osVersionOf oslevel ++ ")",
      OS := oslevel,
      simulator := true,
      destination := "OS=" ++ osVersionOf oslevel ++ ",name=" ++ specDeviceName line } := by
  unfold createDevice
  rw [if_neg (by simp [hu]),
    if_neg (jsIndexOf_single_ne line "(" '(' rfl hop),
    if_neg (jsIndexOf_single_ne line ")" ')' rfl hcp),
    if_neg (by omega),
    deviceNameOf_eq_spec line hop]

/-- Witness for C2 (amended) at the spec's example inputs. -/
theorem createDevice_fields_witness :
    createDevice "iOS 9.1"
      "iPhone 4s (05686243-BA24-44CE-94D9-D6823BF96E46) (Shutdown)" =
      Except.ok {
        tag := "ios-simulator,OS=" ++ osVersionOf "iOS 9.1" ++ ",name=" ++
          specDeviceName "iPhone 4s (05686243-BA24-44CE-94D9-D6823BF96E46) (Shutdown)",
        platform := "ios",
        identifier :=
          extractIdentifier "iPhone 4s (05686243-BA24-44CE-94D9-D6823BF96E46) (Shutdown)",
        name := "ios-simulator " ++
          specDeviceName "iPhone 4s (05686243-BA24-44CE-94D9-D6823BF96E46) (Shutdown)" ++
          " (" ++ osVersionOf "iOS 9.1" ++ ")",
        OS := "iOS 9.1",
        simulator := true,
        destination := "OS=" ++ osVersionOf "iOS 9.1" ++ ",name=" ++
          specDeviceName "iPhone 4s (05686243-BA24-44CE-94D9-D6823BF96E46) (Shutdown)" } :=
  createDevice_fields "iOS 9.1"
    "iPhone 4s (05686243-BA24-44CE-94D9-D6823BF96E46) (Shutdown)"
    (by decide) (by decide) (by decide) (by decide)

/-- C1 counterexample: the claim's listing text, with its trailing newline,
does NOT parse. Splitting on newlines yields a trailing empty line, the
empty line is not a header so the entry loop feeds it to `createDevice`,
and `createDevice` throws because it finds no open parenthesis. -/
theorem getSimulatedDevices_trailing_newline_fails :
    getSimulatedDevices
      "== Device Types ==\n== Devices ==\n-- iOS 9.1 --\niPhone 4s (05686243-BA24-44CE-94D9-D6823BF96E46) (Shutdown)\n" =
      Except.error "createDevice: could not find open paren in: iOS 9.1:" := rfl

/-- C1 amended: the same listing text WITHOUT the trailing newline parses to
exactly one device with `tag = "ios-simulator,OS=9.1,name=iPhone 4s"` and
`identifier = "05686243-BA24-44CE-94D9-D6823BF96E46"` (the grammar does not
tolerate the trailing empty line the final newline would produce). -/
theorem getSimulatedDevices_example_parses :
    getSimulatedDevices
      "== Device Types ==\n== Devices ==\n-- iOS 9.1 --\niPhone 4s (05686243-BA24-44CE-94D9-D6823BF96E46) (Shutdown)" =
      Except.ok [{
        tag := "ios-simulator,OS=9.1,name=iPhone 4s",
        platform := "ios",
        identifier := "05686243-BA24-44CE-94D9-D6823BF96E46",
        name := "ios-simulator iPhone 4s (9.1)",
        OS := "iOS 9.1",
        simulator := true,
        destination := "OS=9.1,name=iPhone 4s" }] := rfl

theorem atPos_drop (pat s : List Char) (a k : Nat) :
    atPos pat (s.drop a) k ↔ atPos pat s (a + k) := by
  unfold atPos
  rw [List.drop_drop]

theorem atPos_dashes_length {s : List Char} {k : Nat}
    (h : atPos ("--" : String).data s k) : k + 2 ≤ s.length := by
  have h2 := isPrefixOf_length_le h
  have he : (("--" : String).data).length = 2 := rfl
  rw [List.length_drop, he] at h2
  omega

/-- C6 counterexample: an OS-level header with no second `"--"` occurrence
does not cause a parse error; `indexOf` returns `-1`, which `slice`
interprets as end-minus-one, so the parser silently returns the malformed
value `"iOT 9."`-style truncation — here `"iOS 9."` — for the line
`"-- iOS 9.1"`. -/
theorem nextValueAsOSLevel_missing_second_dashes_no_error :
    nextValueAsOSLevel "-- iOS 9.1" = Except.ok "iOS 9." := rfl

/-- C6 amended: an OS-level line not starting with `"--"` causes a parse
error naming the line; when the next `"--"` occurrence after offset 2 is at
position k, the value is the substring between offset 2 and k, trimmed; but
when there is no second `"--"` occurrence the parser does NOT fail — the -1
from `indexOf` makes `slice(2, -1)` drop the final character, so it silently
yields the substring from offset 2 without its last character, trimmed. -/
theorem nextValueAsOSLevel_spec (value : String) :
    (("--".data.isPrefixOf value.data ≠ true) →
      ∃ p, nextValueAsOSLevel value = Except.error (p ++ value)) ∧
    (∀ k, "--".data.isPrefixOf value.data = true → 2 ≤ k →
      atPos "--".data value.data k →
      (∀ m, m < k → 2 ≤ m → ¬ atPos "--".data value.data m) →
      nextValueAsOSLevel value =
        Except.ok (jsTrim (String.mk ((value.data.take k).drop 2)))) ∧
    ("--".data.isPrefixOf value.data = true →
      (∀ m, m < value.data.length → 2 ≤ m → ¬ atPos "--".data value.data m) →
      nextValueAsOSLevel value =
        Except.ok (jsTrim (String.mk ((value.data.drop 2).dropLast)))) := by
  refine ⟨?_, ?_, ?_⟩
  · intro hpre
    unfold nextValueAsOSLevel
    rw [if_pos (fun h0 => hpre ((jsIndexOf_eq_zero_iff value "--").1 h0))]
    exact ⟨"expected oslevel prefix of \"--\" in:", rfl⟩
  · intro k hpre hk2 hpos hmin
    unfold nextValueAsOSLevel
    rw [if_neg (by simp [(jsIndexOf_eq_zero_iff value "--").2 hpre])]
    have hklen : k + 2 ≤ value.data.length := atPos_dashes_length hpos
    have hidx : jsIndexOfFrom value "--" 2 = Int.ofNat k := by
      unfold jsIndexOfFrom
      have hmineq : idxOfAux ("--" : String).data (value.data.drop 2) 2 =
          some (2 + (k - 2)) := by
        apply idxOfAux_min
        · rw [atPos_drop, show 2 + (k - 2) = k from by omega]
          exact hpos
        · intro m hm hp
          rw [atPos_drop] at hp
          exact hmin (2 + m) (by omega) (by omega) hp
      rw [hmineq]
      exact congrArg Int.ofNat (by omega)
    rw [hidx]
    unfold jsSlice
    rw [jsSliceClamp_ofNat, show (2 : Int) = Int.ofNat 2 from rfl, jsSliceClamp_ofNat,
      min_eq_left (by omega), min_eq_left (by omega)]
  · intro hpre hnone
    unfold nextValueAsOSLevel
    rw [if_neg (by simp [(jsIndexOf_eq_zero_iff value "--").2 hpre])]
    have hlen2 : 2 ≤ value.data.length := by
      have h2 := atPos_dashes_length (k := 0) (by simpa [atPos] using hpre)
      omega
    have hnone' : ∀ m, 2 ≤ m → ¬ atPos "--".data value.data m := by
      intro m h2 hp
      have hm := atPos_dashes_length hp
      exact hnone m (by omega) h2 hp
    have hidx : jsIndexOfFrom value "--" 2 = -1 := by
      unfold jsIndexOfFrom
      cases heq : idxOfAux ("--" : String).data (value.data.drop 2) 2 with
      | none => rfl
      | some n =>
        obtain ⟨k, hk, hp⟩ := idxOfAux_some _ _ _ _ heq
        rw [atPos_drop] at hp
        exact absurd hp (hnone' (2 + k) (by omega))
    rw [hidx]
    unfold jsSlice
    rw [jsSliceClamp_neg_one, show (2 : Int) = Int.ofNat 2 from rfl, jsSliceClamp_ofNat,
      min_eq_left (by omega)]
    have hdt : (value.data.take (value.data.length - 1)).drop 2 =
        (value.data.drop 2).dropLast := by
      rw [List.drop_take, List.dropLast_eq_take]
      congr 1
      rw [List.length_drop]
      omega
    rw [hdt]

/-- Witness for C6 (amended): all three cases at concrete lines — a line not
starting with `"--"` errors, `"-- iOS 9.1 --"` extracts the substring
between the markers trimmed (second `"--"` at position 11), and
`"-- iOS 9.1"` silently yields a value. -/
theorem nextValueAsOSLevel_spec_witness :
    (∃ p, nextValueAsOSLevel "iPhone" = Except.error (p ++ "iPhone")) ∧
    nextValueAsOSLevel "-- iOS 9.1 --" =
      Except.ok (jsTrim (String.mk ((("-- iOS 9.1 --" : String).data.take 11).drop 2))) ∧
    nextValueAsOSLevel "-- iOS 9.1" =
      Except.ok (jsTrim (String.mk ((("-- iOS 9.1" : String).data.drop 2).dropLast))) :=
  ⟨(nextValueAsOSLevel_spec "iPhone").1 (by decide),
   (nextValueAsOSLevel_spec "-- iOS 9.1 --").2.1 11 (by decide) (by decide) (by decide)
     (by decide),
   (nextValueAsOSLevel_spec "-- iOS 9.1").2.2 (by decide) (by decide)⟩

theorem createDevice_ok_no_unavailable {os l : String} {d : DeviceJson}
    (h : createDevice os l = Except.ok d) : jsIndexOf l "unavailable" = -1 := by
  by_cases hu : jsIndexOf l "unavailable" = -1
  · exact hu
  · unfold createDevice at h
    rw [if_pos hu] at h
    cases h

theorem advanceTillMatch_mem (target : String) :
    ∀ (lines rest : List String), advanceTillMatch target lines = Except.ok rest →
      ∀ x ∈ rest, x ∈ lines := by
  intro lines
  induction lines with
  | nil =>
    intro rest h
    cases h
  | cons l ls ih =>
    intro rest h x hx
    unfold advanceTillMatch at h
    by_cases hm : (jsSlice l 0 (Int.ofNat target.length) == target) = true
    · rw [if_pos hm] at h
      injection h with h
      subst h
      exact List.mem_cons_of_mem l hx
    · rw [if_neg hm] at h
      exact List.mem_cons_of_mem l (ih rest h x hx)

theorem osGo_mem :
    ∀ (lines : List String) (mode : Option String) (ds : List DeviceJson),
      osGo mode lines = Except.ok ds →
      ∀ d ∈ ds, ∃ os2 l2, l2 ∈ lines ∧ createDevice os2 l2 = Except.ok d := by
  intro lines
  induction lines with
  | nil =>
    intro mode ds h d hd
    cases mode with
    | none =>
      injection h with h
      subst h
      cases hd
    | some os =>
      injection h with h
      subst h
      cases hd
  | cons l ls ih =>
    intro mode ds h d hd
    cases mode with
    | none =>
      by_cases he : jsIndexOf l "==" = 0
      · rw [osGo, if_pos he] at h
        injection h with h
        subst h
        cases hd
      · rw [osGo, if_neg he] at h
        cases hnv : nextValueAsOSLevel l with
        | error e =>
          rw [hnv] at h
          cases h
        | ok os2 =>
          rw [hnv] at h
          obtain ⟨os3, l3, hmem, hcd⟩ := ih _ _ h d hd
          exact ⟨os3, l3, List.mem_cons_of_mem l hmem, hcd⟩
    | some os =>
      by_cases hh : isHeader l = true
      · by_cases he : jsIndexOf l "==" = 0
        · rw [osGo, if_pos hh, if_pos he] at h
          injection h with h
          subst h
          cases hd
        · rw [osGo, if_pos hh, if_neg he] at h
          cases hnv : nextValueAsOSLevel l with
          | error e =>
            rw [hnv] at h
            cases h
          | ok os2 =>
            rw [hnv] at h
            obtain ⟨os3, l3, hmem, hcd⟩ := ih _ _ h d hd
            exact ⟨os3, l3, List.mem_cons_of_mem l hmem, hcd⟩
      · by_cases hu : jsIndexOf l "unavailable" = -1
        · rw [osGo, if_neg hh, if_pos hu] at h
          cases hcd : createDevice os l with
          | error e =>
            rw [hcd] at h
            cases h
          | ok d0 =>
            rw [hcd] at h
            cases hgo : osGo (some os) ls with
            | error e =>
              rw [hgo] at h
              cases h
            | ok ds2 =>
              rw [hgo] at h
              injection h with h
              subst h
              cases hd with
              | head =>
                exact ⟨os, l, List.mem_cons_self l ls, hcd⟩
              | tail _ hd2 =>
                obtain ⟨os3, l3, hmem, hcd3⟩ := ih _ _ hgo d hd2
                exact ⟨os3, l3, List.mem_cons_of_mem l hmem, hcd3⟩
        · rw [osGo, if_neg hh, if_neg hu] at h
          obtain ⟨os3, l3, hmem, hcd⟩ := ih _ _ h d hd
          exact ⟨os3, l3, List.mem_cons_of_mem l hmem, hcd⟩

/-- C4: every device in a successful parse of a listing comes from some
input line that does not contain the substring `"unavailable"` (so an
unavailable entry is never yielded), and the entry loop silently skips a
non-header line containing `"unavailable"`. -/
theorem parsed_devices_not_unavailable :
    (∀ (s : String) (ds : List DeviceJson), getSimulatedDevices s = Except.ok ds →
      ∀ d ∈ ds, ∃ os l, l ∈ jsSplitChar '\n' s ∧
        ¬ occursIn ("unavailable" : String).data l.data ∧
        createDevice os l = Except.ok d) ∧
    (∀ (os l : String) (rest : List String), isHeader l = false →
      occursIn ("unavailable" : String).data l.data →
      osGo (some os) (l :: rest) = osGo (some os) rest) := by
  constructor
  · intro s ds h d hd
    unfold getSimulatedDevices getSimulatedDevicesFromLines at h
    cases h1 : advanceTillMatch "== Device Types ==" (jsSplitChar '\n' s) with
    | error e =>
      simp only [h1] at h
      cases h
    | ok s1 =>
      simp only [h1] at h
      cases h2 : advanceTillMatch "== Devices ==" s1 with
      | error e =>
        simp only [h2] at h
        cases h
      | ok s2 =>
        simp only [h2] at h
        obtain ⟨os, l, hmem, hcd⟩ := osGo_mem s2 none ds h d hd
        refine ⟨os, l, ?_, ?_, hcd⟩
        · exact advanceTillMatch_mem _ _ _ h1 l (advanceTillMatch_mem _ _ _ h2 l hmem)
        · intro hocc
          exact absurd (createDevice_ok_no_unavailable hcd)
            (fun hneg => ((jsIndexOf_eq_neg_one_iff l "unavailable").1 hneg) hocc)
  · intro os l rest hh hocc
    have hne : ¬ jsIndexOf l "unavailable" = -1 := by
      intro hneg
      exact ((jsIndexOf_eq_neg_one_iff l "unavailable").1 hneg) hocc
    rw [osGo, if_neg (by simp [hh]), if_neg hne]

/-- Witness for C4: the concrete listing parses to one device, which indeed
comes from a line without "unavailable"; and the loop skips the concrete
unavailable line `"iPad 2 (unavailable, runtime profile not found)"`. -/
theorem parsed_devices_not_unavailable_witness :
    (∃ os l, l ∈ jsSplitChar '\n'
        "== Device Types ==\n== Devices ==\n-- iOS 9.1 --\niPhone 4s (05686243-BA24-44CE-94D9-D6823BF96E46) (Shutdown)" ∧
      ¬ occursIn ("unavailable" : String).data l.data ∧
      createDevice os l = Except.ok {
        tag := "ios-simulator,OS=9.1,name=iPhone 4s",
        platform := "ios",
        identifier := "05686243-BA24-44CE-94D9-D6823BF96E46",
        name := "ios-simulator iPhone 4s (9.1)",
        OS := "iOS 9.1",
        simulator := true,
        destination := "OS=9.1,name=iPhone 4s" }) ∧
    osGo (some "iOS 9.1") ["iPad 2 (unavailable, runtime profile not found)"] =
      osGo (some "iOS 9.1") [] :=
  ⟨parsed_devices_not_unavailable.1
      "== Device Types ==\n== Devices ==\n-- iOS 9.1 --\niPhone 4s (05686243-BA24-44CE-94D9-D6823BF96E46) (Shutdown)"
      _ rfl _ (List.mem_singleton_self _),
   parsed_devices_not_unavailable.2 "iOS 9.1"
      "iPad 2 (unavailable, runtime profile not found)" [] (by decide)
      ((occursIn_iff_atPos _ _).2 ⟨8, by decide⟩)⟩

theorem eq_prefix_jsIndexOf_zero {l : String}
    (h : ("==" : String).data.isPrefixOf l.data = true) : jsIndexOf l "==" = 0 :=
  (jsIndexOf_eq_zero_iff l "==").2 h

theorem eq_prefix_isHeader {l : String}
    (h : ("==" : String).data.isPrefixOf l.data = true) : isHeader l = true := by
  obtain ⟨t, ht⟩ := (isPrefixOf_eq_true_iff _ _).1 h
  unfold isHeader jsSlice
  have hlen : l.data.length = t.length + 2 := by
    rw [← ht]
    simp
  have h2 : jsSliceClamp l 2 = 2 := by
    rw [show (2 : Int) = Int.ofNat 2 from rfl, jsSliceClamp_ofNat]
    omega
  have h0 : jsSliceClamp l 0 = 0 := by
    rw [show (0 : Int) = Int.ofNat 0 from rfl, jsSliceClamp_ofNat]
    omega
  rw [h2, h0, List.drop_zero, ← ht]
  have : (("==" : String).data ++ t).take 2 = ("==" : String).data := by
    have : (("==" : String).data).length = 2 := rfl
    rw [← this, List.take_left]
  rw [this]
  decide

theorem osGo_stops :
    ∀ (pre : List String) (mode : Option String) (l : String) (post : List String),
      ("==" : String).data.isPrefixOf l.data = true →
      osGo mode (pre ++ l :: post) = osGo mode (pre ++ [l]) := by
  intro pre
  induction pre with
  | nil =>
    intro mode l post h
    cases mode with
    | none =>
      rw [List.nil_append, List.nil_append, osGo, osGo,
        if_pos (eq_prefix_jsIndexOf_zero h), if_pos (eq_prefix_jsIndexOf_zero h)]
    | some os =>
      rw [List.nil_append, List.nil_append, osGo, osGo,
        if_pos (eq_prefix_isHeader h), if_pos (eq_prefix_isHeader h),
        if_pos (eq_prefix_jsIndexOf_zero h), if_pos (eq_prefix_jsIndexOf_zero h)]
  | cons p pre ih =>
    intro mode l post h
    rw [List.cons_append, List.cons_append]
    cases mode with
    | none =>
      by_cases he : jsIndexOf p "==" = 0
      · rw [osGo, if_pos he, osGo, if_pos he]
      · rw [osGo, if_neg he, osGo, if_neg he]
        cases hnv : nextValueAsOSLevel p with
        | error e => rfl
        | ok os => exact ih (some os) l post h
    | some os =>
      by_cases hh : isHeader p = true
      · by_cases he : jsIndexOf p "==" = 0
        · rw [osGo, if_pos hh, if_pos he, osGo, if_pos hh, if_pos he]
        · rw [osGo, if_pos hh, if_neg he, osGo, if_pos hh, if_neg he]
          cases hnv : nextValueAsOSLevel p with
          | error e => rfl
          | ok os2 => exact ih (some os2) l post h
      · by_cases hu : jsIndexOf p "unavailable" = -1
        · rw [osGo, if_neg hh, if_pos hu, osGo, if_neg hh, if_pos hu]
          cases hcd : createDevice os p with
          | error e => rfl
          | ok d => rw [ih (some os) l post h]
        · rw [osGo, if_neg hh, if_neg hu, osGo, if_neg hh, if_neg hu]
          exact ih (some os) l post h

/-- C7: device enumeration stops at a new top-level `"=="` section: the
lines after the first subsequent `"=="` header are irrelevant to the result
of `getOSLevelEntries` (and enumeration at the end of the stream returns
what was accumulated, the base case of the same recursion). -/
theorem getOSLevelEntries_stops_at_section (pre post : List String) (l : String)
    (h : ("==" : String).data.isPrefixOf l.data = true) :
    getOSLevelEntries (pre ++ l :: post) = getOSLevelEntries (pre ++ [l]) :=
  osGo_stops pre none l post h

/-- Witness for C7: with a `"== Device Pairs =="` header following the
device lines, trailing junk after it (which would crash `createDevice`)
does not affect the parsed entries. -/
theorem getOSLevelEntries_stops_at_section_witness :
    getOSLevelEntries
      ["-- iOS 9.1 --", "iPhone 4s (05686243-BA24-44CE-94D9-D6823BF96E46) (Shutdown)",
        "== Device Pairs ==", "junk without parens"] =
      getOSLevelEntries
        ["-- iOS 9.1 --", "iPhone 4s (05686243-BA24-44CE-94D9-D6823BF96E46) (Shutdown)",
          "== Device Pairs =="] :=
  getOSLevelEntries_stops_at_section
    ["-- iOS 9.1 --", "iPhone 4s (05686243-BA24-44CE-94D9-D6823BF96E46) (Shutdown)"]
    ["junk without parens"] "== Device Pairs ==" (by decide)

theorem get_mapSet (m : List (String × Device)) (k : String) (v : Device) (t : String) :
    jsMapGet (mapSet m k v) t = if k = t then some v else jsMapGet m t := by
  induction m with
  | nil =>
    by_cases h : k = t <;> simp [mapSet, jsMapGet, h]
  | cons p rest ih =>
    obtain ⟨k2, v2⟩ := p
    by_cases hk : k2 = k
    · subst hk
      by_cases ht : k2 = t
      · subst ht
        simp [mapSet, jsMapGet]
      · simp [mapSet, jsMapGet, ht]
    · by_cases ht : k2 = t
      · subst ht
        have hkt : ¬ (k = k2) := fun he => hk he.symm
        simp [mapSet, hk, jsMapGet, hkt]
      · simp [mapSet, hk, jsMapGet, ht, ih]

theorem lastWith_append (a b : List DeviceJson) (t : String) :
    lastWith (a ++ b) t = match lastWith b t with
      | some d => some d
      | none => lastWith a t := by
  induction a with
  | nil =>
    rw [List.nil_append]
    cases lastWith b t <;> simp [lastWith]
  | cons d a ih =>
    rw [List.cons_append, lastWith, ih, lastWith]
    cases lastWith b t <;> cases lastWith a t <;> rfl

theorem lastWith_eq_none_iff (ds : List DeviceJson) (t : String) :
    lastWith ds t = none ↔ ∀ d ∈ ds, d.tag ≠ t := by
  induction ds with
  | nil => simp [lastWith]
  | cons d rest ih =>
    rw [lastWith]
    cases h : lastWith rest t with
    | some d2 =>
      simp only []
      constructor
      · intro hc
        cases hc
      · intro hall
        have hnone := ih.2 (fun x hx => hall x (List.mem_cons_of_mem d hx))
        rw [hnone] at h
        cases h
    | none =>
      by_cases htag : d.tag = t
      · simp only [if_pos htag]
        constructor
        · intro hc
          cases hc
        · intro hall
          exact absurd htag (hall d (List.mem_cons_self d rest))
      · simp only [if_neg htag]
        constructor
        · intro _
          intro x hx
          cases hx with
          | head => exact htag
          | tail _ hx2 => exact ih.1 h x hx2
        · intro _
          trivial

theorem lastWith_mem (ds : List DeviceJson) (t : String) (d : DeviceJson)
    (h : lastWith ds t = some d) : d ∈ ds ∧ d.tag = t := by
  induction ds with
  | nil => cases h
  | cons d0 rest ih =>
    rw [lastWith] at h
    cases h2 : lastWith rest t with
    | some d2 =>
      rw [h2] at h
      injection h with h
      subst h
      obtain ⟨hmem, htag⟩ := ih h2
      exact ⟨List.mem_cons_of_mem d0 hmem, htag⟩
    | none =>
      rw [h2] at h
      by_cases htag : d0.tag = t
      · rw [if_pos htag] at h
        injection h with h
        subst h
        exact ⟨List.mem_cons_self d0 rest, htag⟩
      · rw [if_neg htag] at h
        cases h

theorem foldl_register_byTag :
    ∀ (ds : List DeviceJson) (m : List (String × Device)) (l : List Device),
      (ds.foldl registerDevice ⟨m, l⟩).devicesByTag =
        ds.foldl (fun mp j => mapSet mp (newDevice j).tag (newDevice j)) m := by
  intro ds
  induction ds with
  | nil =>
    intro m l
    rfl
  | cons j rest ih =>
    intro m l
    rw [List.foldl_cons, List.foldl_cons]
    exact ih _ _

theorem foldl_register_devices :
    ∀ (ds : List DeviceJson) (m : List (String × Device)) (l : List Device),
      (ds.foldl registerDevice ⟨m, l⟩).devices = l ++ ds.map newDevice := by
  intro ds
  induction ds with
  | nil =>
    intro m l
    simp
  | cons j rest ih =>
    intro m l
    rw [List.foldl_cons, List.map_cons]
    rw [show (registerDevice ⟨m, l⟩ j) =
      (⟨mapSet m (newDevice j).tag (newDevice j), l ++ [newDevice j]⟩ : DeviceManager)
      from rfl]
    rw [ih]
    simp

theorem get_fold_byTag :
    ∀ (ds : List DeviceJson) (mp : List (String × Device)) (t : String),
      jsMapGet (ds.foldl (fun m j => mapSet m (newDevice j).tag (newDevice j)) mp) t =
        match lastWith ds t with
        | some d => some (newDevice d)
        | none => jsMapGet mp t := by
  intro ds
  induction ds with
  | nil =>
    intro mp t
    rfl
  | cons j rest ih =>
    intro mp t
    rw [List.foldl_cons, ih, lastWith]
    cases h : lastWith rest t with
    | some d2 => rfl
    | none =>
      by_cases ht : (newDevice j).tag = t
      · rw [get_mapSet, if_pos ht, if_pos (show j.tag = t from ht)]
      · rw [get_mapSet, if_neg ht, if_neg (show ¬ j.tag = t from ht)]

theorem mkDeviceManager_findByTag (a b : List DeviceJson) (t : String) :
    (mkDeviceManager a b).findByTag t =
      match lastWith (a ++ b) t with
      | some d => some (newDevice d)
      | none => none := by
  unfold mkDeviceManager DeviceManager.findByTag
  rw [foldl_register_byTag, get_fold_byTag]
  cases lastWith (a ++ b) t <;> rfl

/-- C3: `findByTag` returns `none` (not an error) for every tag absent from
both the configured and discovered device sets; and for a tag present among
the discovered devices, `findByTag` returns the last discovered device with
that tag — the configured entries cannot win, because configured devices
are registered before discovered ones and `Map.set` overwrites: the result
is unchanged if the configured list is dropped entirely. -/
theorem findByTag_spec (cfg disc : List DeviceJson) (t : String) :
    ((∀ d ∈ cfg ++ disc, d.tag ≠ t) →
      (mkDeviceManager cfg disc).findByTag t = none) ∧
    (∀ d0 ∈ disc, d0.tag = t →
      ∃ d, d ∈ disc ∧ d.tag = t ∧ lastWith disc t = some d ∧
        (mkDeviceManager cfg disc).findByTag t = some (newDevice d) ∧
        (mkDeviceManager cfg disc).findByTag t =
          (mkDeviceManager [] disc).findByTag t) := by
  constructor
  · intro hall
    rw [mkDeviceManager_findByTag, (lastWith_eq_none_iff _ _).2 hall]
  · intro d0 hd0 htag
    have hsome : ∃ d, lastWith disc t = some d := by
      cases h : lastWith disc t with
      | some d => exact ⟨d, rfl⟩
      | none => exact absurd htag ((lastWith_eq_none_iff _ _).1 h d0 hd0)
    obtain ⟨d, hd⟩ := hsome
    obtain ⟨hmem, htag2⟩ := lastWith_mem _ _ _ hd
    refine ⟨d, hmem, htag2, hd, ?_, ?_⟩
    · rw [mkDeviceManager_findByTag, lastWith_append, hd]
    · rw [mkDeviceManager_findByTag, mkDeviceManager_findByTag, lastWith_append,
        List.nil_append, hd]

/-- Witness for C3: with one configured and one discovered device sharing a
tag, lookup of an absent tag yields `none`, and lookup of the shared tag
yields the discovered device. -/
theorem findByTag_spec_witness :
    ((mkDeviceManager [sampleConfigDevice] [sampleDiscoveredDevice]).findByTag
      "no-such-tag" = none) ∧
    (∃ d, d ∈ [sampleDiscoveredDevice] ∧
      d.tag = "ios-simulator,OS=9.1,name=iPhone 4s" ∧
      lastWith [sampleDiscoveredDevice] "ios-simulator,OS=9.1,name=iPhone 4s" = some d ∧
      (mkDeviceManager [sampleConfigDevice] [sampleDiscoveredDevice]).findByTag
        "ios-simulator,OS=9.1,name=iPhone 4s" = some (newDevice d) ∧
      (mkDeviceManager [sampleConfigDevice] [sampleDiscoveredDevice]).findByTag
        "ios-simulator,OS=9.1,name=iPhone 4s" =
        (mkDeviceManager [] [sampleDiscoveredDevice]).findByTag
          "ios-simulator,OS=9.1,name=iPhone 4s") :=
  ⟨(findByTag_spec [sampleConfigDevice] [sampleDiscoveredDevice] "no-such-tag").1
      (by decide),
   (findByTag_spec [sampleConfigDevice] [sampleDiscoveredDevice]
      "ios-simulator,OS=9.1,name=iPhone 4s").2 sampleDiscoveredDevice
      (List.mem_singleton_self _) (by decide)⟩

theorem mapSet_keys (m : List (String × Device)) (k : String) (v : Device) :
    (mapSet m k v).map Prod.fst =
      if k ∈ m.map Prod.fst then m.map Prod.fst else m.map Prod.fst ++ [k] := by
  induction m with
  | nil => simp [mapSet]
  | cons p rest ih =>
    obtain ⟨k2, v2⟩ := p
    by_cases hk : k2 = k
    · subst hk
      simp [mapSet]
    · have hne : ¬ (k = k2) := fun he => hk he.symm
      simp only [mapSet, if_neg hk, List.map_cons, ih, List.mem_cons, hne, false_or]
      by_cases hm : k ∈ rest.map Prod.fst
      · simp [hm]
      · simp [hm]

theorem fold_register_keys :
    ∀ (ds : List DeviceJson) (mp : List (String × Device)),
      (mp.map Prod.fst).Nodup →
      ((ds.foldl (fun m j => mapSet m (newDevice j).tag (newDevice j)) mp).map
        Prod.fst).Nodup ∧
      (∀ k ∈ (ds.foldl (fun m j => mapSet m (newDevice j).tag (newDevice j)) mp).map
        Prod.fst, k ∈ mp.map Prod.fst ∨ k ∈ ds.map DeviceJson.tag) := by
  intro ds
  induction ds with
  | nil =>
    intro mp hnd
    exact ⟨hnd, fun k hk => Or.inl hk⟩
  | cons j rest ih =>
    intro mp hnd
    rw [List.foldl_cons]
    have hkeys := mapSet_keys mp (newDevice j).tag (newDevice j)
    by_cases hin : (newDevice j).tag ∈ mp.map Prod.fst
    · rw [if_pos hin] at hkeys
      have hnd2 : ((mapSet mp (newDevice j).tag (newDevice j)).map Prod.fst).Nodup := by
        rw [hkeys]
        exact hnd
      obtain ⟨ha, hb⟩ := ih _ hnd2
      refine ⟨ha, fun k hk => ?_⟩
      cases hb k hk with
      | inl h2 =>
        rw [hkeys] at h2
        exact Or.inl h2
      | inr h2 =>
        exact Or.inr (List.mem_cons_of_mem _ h2)
    · rw [if_neg hin] at hkeys
      have hnd2 : ((mapSet mp (newDevice j).tag (newDevice j)).map Prod.fst).Nodup := by
        rw [hkeys]
        simp [List.nodup_append, hnd, hin]
      obtain ⟨ha, hb⟩ := ih _ hnd2
      refine ⟨ha, fun k hk => ?_⟩
      cases hb k hk with
      | inl h2 =>
        rw [hkeys] at h2
        cases List.mem_append.1 h2 with
        | inl h3 => exact Or.inl h3
        | inr h3 =>
          have : k = (newDevice j).tag := by simpa using h3
          subst this
          exact Or.inr (List.mem_cons_self _ _)
      | inr h2 =>
        exact Or.inr (List.mem_cons_of_mem _ h2)

/-- C10: when the combined device list has two entries sharing a tag, the
registry's ordered `devices` list still has one entry per registered
descriptor, while the tag-indexed map keeps only the last-registered entry
per tag, so the map has strictly fewer entries than the `devices` list; and
the entry the map keeps for a tag is the last registered descriptor with
that tag. -/
theorem registry_keeps_duplicates (cfg disc : List DeviceJson)
    (hdup : ¬ ((cfg ++ disc).map DeviceJson.tag).Nodup) :
    (mkDeviceManager cfg disc).devices.length = (cfg ++ disc).length ∧
    (mkDeviceManager cfg disc).devicesByTag.length <
      (mkDeviceManager cfg disc).devices.length ∧
    (∀ t d, lastWith (cfg ++ disc) t = some d →
      (mkDeviceManager cfg disc).findByTag t = some (newDevice d)) := by
  have hdev : (mkDeviceManager cfg disc).devices = (cfg ++ disc).map newDevice := by
    unfold mkDeviceManager
    rw [foldl_register_devices, List.nil_append]
  have hlen : (mkDeviceManager cfg disc).devices.length = (cfg ++ disc).length := by
    rw [hdev, List.length_map]
  refine ⟨hlen, ?_, ?_⟩
  · have hbt : (mkDeviceManager cfg disc).devicesByTag =
        (cfg ++ disc).foldl (fun m j => mapSet m (newDevice j).tag (newDevice j)) [] := by
      unfold mkDeviceManager
      rw [foldl_register_byTag]
    obtain ⟨hnd, hsub⟩ := fold_register_keys (cfg ++ disc) [] (by simp)
    set keys := ((cfg ++ disc).foldl
      (fun m j => mapSet m (newDevice j).tag (newDevice j)) []).map Prod.fst with hkeysdef
    have hsub2 : ∀ k ∈ keys, k ∈ (cfg ++ disc).map DeviceJson.tag := by
      intro k hk
      cases hsub k hk with
      | inl h2 => cases h2
      | inr h2 => exact h2
    have hcard1 : keys.length = keys.toFinset.card := by
      rw [List.card_toFinset, List.dedup_eq_self.2 hnd]
    have hcard2 : keys.toFinset ⊆ ((cfg ++ disc).map DeviceJson.tag).toFinset := by
      intro x hx
      exact List.mem_toFinset.2 (hsub2 x (List.mem_toFinset.1 hx))
    have hcard3 : ((cfg ++ disc).map DeviceJson.tag).toFinset.card <
        ((cfg ++ disc).map DeviceJson.tag).length := by
      rw [List.card_toFinset]
      have hsl := List.dedup_sublist ((cfg ++ disc).map DeviceJson.tag)
      have hle := hsl.length_le
      have hne : ((cfg ++ disc).map DeviceJson.tag).dedup.length ≠
          ((cfg ++ disc).map DeviceJson.tag).length := by
        intro he
        exact hdup (List.dedup_eq_self.1 (hsl.eq_of_length he))
      omega
    rw [hlen, hbt]
    have hkl : ((cfg ++ disc).foldl
        (fun m j => mapSet m (newDevice j).tag (newDevice j)) []).length =
        keys.length := (List.length_map _ _).symm
    rw [hkl]
    have hc := Finset.card_le_card hcard2
    rw [List.length_map] at hcard3
    omega
  · intro t d hd
    rw [mkDeviceManager_findByTag, hd]

/-- Witness for C10: registering a configured and a discovered device with
the same tag yields a `devices` list of length 2 but a tag map with a
single entry, holding the discovered (last-registered) device. -/
theorem registry_keeps_duplicates_witness :
    (mkDeviceManager [sampleConfigDevice] [sampleDiscoveredDevice]).devices.length =
      ([sampleConfigDevice] ++ [sampleDiscoveredDevice]).length ∧
    (mkDeviceManager [sampleConfigDevice] [sampleDiscoveredDevice]).devicesByTag.length <
      (mkDeviceManager [sampleConfigDevice] [sampleDiscoveredDevice]).devices.length ∧
    (∀ t d, lastWith ([sampleConfigDevice] ++ [sampleDiscoveredDevice]) t = some d →
      (mkDeviceManager [sampleConfigDevice] [sampleDiscoveredDevice]).findByTag t =
        some (newDevice d)) :=
  registry_keeps_duplicates [sampleConfigDevice] [sampleDiscoveredDevice] (by decide)

theorem versionFromLines_fold_isSome :
    ∀ (ls : List String) (acc : Option String),
      ((ls.foldl (fun acc data => if data.length = 41 then some (jsTrim data) else acc)
        acc).isSome = true) ↔ acc.isSome = true ∨ ∃ l ∈ ls, l.length = 41 := by
  intro ls
  induction ls with
  | nil =>
    intro acc
    simp
  | cons l rest ih =>
    intro acc
    rw [List.foldl_cons]
    by_cases hl : l.length = 41
    · rw [if_pos hl, ih]
      simp [hl]
    · rw [if_neg hl, ih]
      simp [hl]

theorem versionFromLines_isSome (ls : List String) :
    ((versionFromLines ls).isSome = true) ↔ ∃ l ∈ ls, l.length = 41 := by
  unfold versionFromLines
  rw [versionFromLines_fold_isSome]
  simp

theorem versionOutput_lookup (o : Option String) :
    ((versionOutput o).lookup "version").isSome = o.isSome := by
  cases o <;> simp [versionOutput, List.lookup]

/-- C8 counterexample: the claim is false when the FAILING command is the
fourth (git rev-parse). With the first three commands succeeding and the
fourth failing, the repo-checkout task does not surface the failure — the
bare `cb()` swallows it and `execute` completes with `none` as its error —
and the returned output even contains the `"version"` key, set by a
41-character stdout line delivered during the failing call, not before it. -/
theorem repoCheckout_fourth_failure_swallowed :
    ((fun (c : ExecCall) =>
        if c.cmd = "git" then
          (⟨some "rev-parse failed",
            ["0123456789abcdef0123456789abcdef01234567\n"]⟩ : ExecResult)
        else ⟨none, []⟩)
      (repoCall4 ⟨"http://example.com/manifest.git", none, none, none⟩
        ⟨"/tmp/work", "/opt/bin"⟩)).error = some "rev-parse failed" ∧
    repoCheckoutExecute
      ⟨"http://example.com/manifest.git", none, none, none⟩
      ⟨"/tmp/work", "/opt/bin"⟩
      (fun c => if c.cmd = "git" then
          ⟨some "rev-parse failed", ["0123456789abcdef0123456789abcdef01234567\n"]⟩
        else ⟨none, []⟩) =
      (none, [("version", "0123456789abcdef0123456789abcdef01234567")],
       [repoCall1 ⟨"/tmp/work", "/opt/bin"⟩,
        repoCall2 ⟨"http://example.com/manifest.git", none, none, none⟩
          ⟨"/tmp/work", "/opt/bin"⟩,
        repoCall3 ⟨"/tmp/work", "/opt/bin"⟩,
        repoCall4 ⟨"http://example.com/manifest.git", none, none, none⟩
          ⟨"/tmp/work", "/opt/bin"⟩]) :=
  ⟨rfl, rfl⟩

/-- C8 amended: for each of the FIRST THREE of the task's four commands the
claim holds — if the nth command fails (earlier ones succeeding), the
repo-checkout task stops issuing commands right there, passes that failure
to its callback as the error, and returns the output map as it stood before
the failing call (empty, since only the final step writes keys). The final
revision-reading command is the exception the code makes: its failure is
swallowed (see the counterexample). -/
theorem repoCheckout_stops_on_failure (params : RepoParams) (context : RepoContext)
    (exec : ExecCall → ExecResult) (e : String) :
    ((exec (repoCall1 context)).error = some e →
      repoCheckoutExecute params context exec = (some e, [], [repoCall1 context])) ∧
    ((exec (repoCall1 context)).error = none →
      (exec (repoCall2 params context)).error = some e →
      repoCheckoutExecute params context exec =
        (some e, [], [repoCall1 context, repoCall2 params context])) ∧
    ((exec (repoCall1 context)).error = none →
      (exec (repoCall2 params context)).error = none →
      (exec (repoCall3 context)).error = some e →
      repoCheckoutExecute params context exec =
        (some e, [],
         [repoCall1 context, repoCall2 params context, repoCall3 context])) := by
  refine ⟨?_, ?_, ?_⟩
  · intro h1
    simp only [repoCheckoutExecute, h1]
  · intro h1 h2
    simp only [repoCheckoutExecute, h1, h2]
  · intro h1 h2 h3
    simp only [repoCheckoutExecute, h1, h2, h3]

/-- Witness for C8 (amended): concrete runners failing on exactly the
first (mkdir), second (repo init), and third (repo sync) command
respectively, each exercising the corresponding part of the theorem. -/
theorem repoCheckout_stops_on_failure_witness :
    (repoCheckoutExecute
      ⟨"http://example.com/manifest.git", none, none, none⟩
      ⟨"/tmp/work", "/opt/bin"⟩
      (fun c => if c.cmd = "mkdir" then ⟨some "mkdir failed", []⟩ else ⟨none, []⟩) =
      (some "mkdir failed", [], [repoCall1 ⟨"/tmp/work", "/opt/bin"⟩])) ∧
    (repoCheckoutExecute
      ⟨"http://example.com/manifest.git", none, none, none⟩
      ⟨"/tmp/work", "/opt/bin"⟩
      (fun c => if c.args.head? = some "init" then ⟨some "init failed", []⟩
        else ⟨none, []⟩) =
      (some "init failed", [],
       [repoCall1 ⟨"/tmp/work", "/opt/bin"⟩,
        repoCall2 ⟨"http://example.com/manifest.git", none, none, none⟩
          ⟨"/tmp/work", "/opt/bin"⟩])) ∧
    (repoCheckoutExecute
      ⟨"http://example.com/manifest.git", none, none, none⟩
      ⟨"/tmp/work", "/opt/bin"⟩
      (fun c => if c.args.head? = some "sync" then ⟨some "sync failed", []⟩
        else ⟨none, []⟩) =
      (some "sync failed", [],
       [repoCall1 ⟨"/tmp/work", "/opt/bin"⟩,
        repoCall2 ⟨"http://example.com/manifest.git", none, none, none⟩
          ⟨"/tmp/work", "/opt/bin"⟩,
        repoCall3 ⟨"/tmp/work", "/opt/bin"⟩])) :=
  ⟨(repoCheckout_stops_on_failure
      ⟨"http://example.com/manifest.git", none, none, none⟩
      ⟨"/tmp/work", "/opt/bin"⟩
      (fun c => if c.cmd = "mkdir" then ⟨some "mkdir failed", []⟩ else ⟨none, []⟩)
      "mkdir failed").1 rfl,
   (repoCheckout_stops_on_failure
      ⟨"http://example.com/manifest.git", none, none, none⟩
      ⟨"/tmp/work", "/opt/bin"⟩
      (fun c => if c.args.head? = some "init" then ⟨some "init failed", []⟩
        else ⟨none, []⟩)
      "init failed").2.1 rfl rfl,
   (repoCheckout_stops_on_failure
      ⟨"http://example.com/manifest.git", none, none, none⟩
      ⟨"/tmp/work", "/opt/bin"⟩
      (fun c => if c.args.head? = some "sync" then ⟨some "sync failed", []⟩
        else ⟨none, []⟩)
      "sync failed").2.2 rfl rfl rfl⟩

/-- C9: when the first three commands succeed, the repo-checkout `execute`
completes without error regardless of what the final git rev-parse command
reports — its error is swallowed by the bare `cb()` — and the `output` map
has a `"version"` key exactly when some stdout line delivered by that final
command has length exactly 41. -/
theorem repoCheckout_version_only_on_41 (params : RepoParams) (context : RepoContext)
    (exec : ExecCall → ExecResult)
    (h1 : (exec (repoCall1 context)).error = none)
    (h2 : (exec (repoCall2 params context)).error = none)
    (h3 : (exec (repoCall3 context)).error = none) :
    (repoCheckoutExecute params context exec).1 = none ∧
    ((((repoCheckoutExecute params context exec).2.1).lookup "version").isSome = true ↔
      ∃ l ∈ (exec (repoCall4 params context)).stdoutLines, l.length = 41) := by
  constructor
  · simp only [repoCheckoutExecute, h1, h2, h3]
  · simp only [repoCheckoutExecute, h1, h2, h3]
    rw [versionOutput_lookup, versionFromLines_isSome]

/-- Witness for C9 with a concrete runner whose git rev-parse call fails
and delivers a stdout line of length 8: execute still succeeds and records
no version. -/
theorem repoCheckout_version_only_on_41_witness :
    (repoCheckoutExecute
      ⟨"http://example.com/manifest.git", none, none, none⟩
      ⟨"/tmp/work", "/opt/bin"⟩
      (fun c => if c.cmd = "git" then ⟨some "rev-parse failed", ["deadbeef"]⟩
        else ⟨none, []⟩)).1 = none ∧
    ((((repoCheckoutExecute
      ⟨"http://example.com/manifest.git", none, none, none⟩
      ⟨"/tmp/work", "/opt/bin"⟩
      (fun c => if c.cmd = "git" then ⟨some "rev-parse failed", ["deadbeef"]⟩
        else ⟨none, []⟩)).2.1).lookup "version").isSome = true ↔
      ∃ l ∈ ((fun (c : ExecCall) =>
          if c.cmd = "git" then (⟨some "rev-parse failed", ["deadbeef"]⟩ : ExecResult)
          else ⟨none, []⟩)
        (repoCall4 ⟨"http://example.com/manifest.git", none, none, none⟩
          ⟨"/tmp/work", "/opt/bin"⟩)).stdoutLines, l.length = 41) :=
  repoCheckout_version_only_on_41
    ⟨"http://example.com/manifest.git", none, none, none⟩
    ⟨"/tmp/work", "/opt/bin"⟩
    (fun c => if c.cmd = "git" then ⟨some "rev-parse failed", ["deadbeef"]⟩
      else ⟨none, []⟩)
    rfl rfl rfl
